import Mathlib

/-!
Verification of the order admission and fulfillment pipeline of the
go-gin-high-concurrency ticket-sales backend, as a shallow embedding of the
source: the Redis inventory engine (internal/cache/ticket_inventory.go), the
relational repositories (ticket repository, order repository), the order
service (PrepareOrder, DispatchOrder, Confirm, Cancel) and the poison policy
of the Redis-stream queue.
-/

deriving instance DecidableEq for Except

namespace TicketSys

/-- Prices stand for the float64 values of the source; no verified property
performs arithmetic on them beyond carrying them around, so rationals are a
faithful stand-in. -/
abbrev Price := Rat

/-! ### Association lists, modelling Redis hashes -/

/-- Lookup in an association list, modelling HGET of a Redis hash field. -/
def alookup {α : Type} : List (Nat × α) → Nat → Option α
  | [], _ => none
  | (k', v) :: t, k => if k' = k then some v else alookup t k

/-- Insert or replace a key in place, modelling HSET of a single field. -/
def upsert {α : Type} : List (Nat × α) → Nat → α → List (Nat × α)
  | [], k, v => [(k, v)]
  | (k', v') :: t, k, v => if k' = k then (k, v) :: t else (k', v') :: upsert t k v

/-- Modelling HINCRBY: an absent field counts as 0 and is created. -/
def hincrby (l : List (Nat × Int)) (k : Nat) (d : Int) : List (Nat × Int) :=
  upsert l k ((alookup l k).getD 0 + d)

theorem alookup_upsert_self {α : Type} (l : List (Nat × α)) (k : Nat) (v : α) :
    alookup (upsert l k v) k = some v := by
  induction l with
  | nil => simp [upsert, alookup]
  | cons p t ih =>
      by_cases h : p.1 = k
      · simp [upsert, alookup, h]
      · simp [upsert, alookup, h, ih]

theorem alookup_upsert_other {α : Type} (l : List (Nat × α)) (k k2 : Nat) (v : α)
    (h : k2 ≠ k) : alookup (upsert l k v) k2 = alookup l k2 := by
  have hk : k ≠ k2 := fun he => h he.symm
  induction l with
  | nil => simp [upsert, alookup, hk]
  | cons p t ih =>
      by_cases hp : p.1 = k
      · simp [upsert, alookup, hp, hk]
      · by_cases hp2 : p.1 = k2
        · simp [upsert, alookup, hp, hp2, hk, h]
        · simp [upsert, alookup, hp, hp2, hk, h, ih]

theorem alookup_hincrby_self (l : List (Nat × Int)) (k : Nat) (d : Int) :
    alookup (hincrby l k d) k = some ((alookup l k).getD 0 + d) :=
  alookup_upsert_self l k _

theorem alookup_hincrby_other (l : List (Nat × Int)) (k k2 : Nat) (d : Int)
    (h : k2 ≠ k) : alookup (hincrby l k d) k2 = alookup l k2 :=
  alookup_upsert_other l k k2 _ h

/-! ### The inventory engine (internal/cache/ticket_inventory.go) -/

/-- Fields of the hash at key `ticket:<id>:info`: written by WarmUpInventory,
read and mutated by the DecreStock and RollbackStock scripts. A missing key
reads as a hash in which every field is absent. -/
structure InfoHash where
  stock : Option Int
  price : Option Price
  limit : Option Int
deriving DecidableEq

/-- The Redis state seen by the inventory engine: for every ticket id the
hash `ticket:<id>:info` and the per-user hash `ticket:<id>:users`. -/
structure RedisState where
  infos : List (Nat × InfoHash)
  users : List (Nat × List (Nat × Int))
deriving DecidableEq

def emptyRedis : RedisState := { infos := [], users := [] }

/-- Read of the info hash of a ticket; a missing key reads as a hash with
every field absent (HMGET then yields nil for each field). -/
def getInfoHash (st : RedisState) (t : Nat) : InfoHash :=
  (alookup st.infos t).getD { stock := none, price := none, limit := none }

/-- Read of the per-user hash of a ticket; a missing key reads as empty. -/
def getUsersHash (st : RedisState) (t : Nat) : List (Nat × Int) :=
  (alookup st.users t).getD []

/-- HGET of the purchased counter of one user, with the default of 0 used by
the script (`or '0'`). -/
def userBought (st : RedisState) (t : Nat) (u : Nat) : Int :=
  (alookup (getUsersHash st t) u).getD 0

/-- Errors of pkg/app_errors surfaced by the verified operations, together
with the two backend constraint violations on orders.request_id and raw
transport failures carrying an opaque code. -/
inductive AppError
  | insufficientStock
  | exceedsMaxPerUser
  | ticketNotFound
  | orderNotFound
  | invalidOrderStatus
  | internalError
  | notNullRequestID
  | uniqueRequestID
  | transport (code : Nat)
deriving DecidableEq

/-- DecreStock of RedisTicketInventoryManagerImpl: the Lua script run by one
EVAL. It reads stock, price and limit of the info hash with HMGET and rejects
with code -3 (ErrTicketNotFound) if any is absent; rejects with code -1
(ErrInsufficientStock) if stock < qty; reads the user counter with HGET
(default 0) and rejects with code -2 (ErrExceedsMaxPerUser) if
bought + qty > limit; otherwise decrements the stock field and increments
the user counter (both HINCRBY) and returns the price. The second component
is the Redis state after the script; rejections leave it unchanged. -/
def decreStock (st : RedisState) (t : Nat) (q : Int) (u : Nat) :
    Except AppError Price × RedisState :=
  match (getInfoHash st t).stock, (getInfoHash st t).price, (getInfoHash st t).limit with
  | some stock, some price, some limit =>
      if stock < q then (Except.error AppError.insufficientStock, st)
      else if limit < userBought st t u + q then
        (Except.error AppError.exceedsMaxPerUser, st)
      else
        (Except.ok price,
          { infos := upsert st.infos t
              { stock := some (stock - q), price := some price, limit := some limit },
            users := upsert st.users t (hincrby (getUsersHash st t) u q) })
  | _, _, _ => (Except.error AppError.ticketNotFound, st)

/-- RollbackStock of RedisTicketInventoryManagerImpl: the Lua script run by
one EVAL, incrementing the stock field by qty and the user counter by -qty
(both HINCRBY, creating absent fields at 0). -/
def rollbackStock (st : RedisState) (t : Nat) (q : Int) (u : Nat) : RedisState :=
  let info := getInfoHash st t
  { infos := upsert st.infos t ({ info with stock := some (info.stock.getD 0 + q) }),
    users := upsert st.users t (hincrby (getUsersHash st t) u (-q)) }

/-- WarmUpInventory: HSET of the three fields stock, price and limit of the
info hash of the ticket; the per-user hashes are not touched. -/
def warmUpInventory (st : RedisState) (t : Nat) (stock : Int) (price : Price)
    (limit : Int) : RedisState :=
  let h : InfoHash := { stock := some stock, price := some price, limit := some limit }
  { st with infos := upsert st.infos t h }

theorem getInfoHash_warmUp (st : RedisState) (t : Nat) (s : Int) (p : Price)
    (L : Int) :
    getInfoHash (warmUpInventory st t s p L) t =
      { stock := some s, price := some p, limit := some L } := by
  simp [warmUpInventory, getInfoHash, alookup_upsert_self]

/-- Claim C10: WarmUpInventory writes only the info hash of the warmed
ticket: every per-user purchased counter of every ticket is exactly as
before, while the stock field of the warmed ticket is reset to the given
value, so re-warming resets stock but no user quota. -/
theorem warmup_touches_only_info (st : RedisState) (t t' : Nat) (s : Int)
    (p : Price) (L : Int) :
    getUsersHash (warmUpInventory st t s p L) t' = getUsersHash st t' ∧
    getInfoHash (warmUpInventory st t s p L) t =
      { stock := some s, price := some p, limit := some L } :=
  ⟨rfl, getInfoHash_warmUp st t s p L⟩

/-- A successful reserve followed by the rollback of the same ticket,
quantity and user restores every observable of the inventory: shared helper
behind the neutrality and the publish-failure claims. -/
theorem reserve_rollback_restores (st : RedisState) (t : Nat) (q : Int)
    (u : Nat) (p : Price)
    (h : (decreStock st t q u).1 = Except.ok p) :
    (∀ t', getInfoHash (rollbackStock (decreStock st t q u).2 t q u) t' =
      getInfoHash st t') ∧
    (∀ t' v, userBought (rollbackStock (decreStock st t q u).2 t q u) t' v =
      userBought st t' v) := by
  rcases hstock : (getInfoHash st t).stock with _ | s
  · simp [decreStock, hstock] at h
  rcases hprice : (getInfoHash st t).price with _ | pr
  · simp [decreStock, hstock, hprice] at h
  rcases hlimit : (getInfoHash st t).limit with _ | L
  · simp [decreStock, hstock, hprice, hlimit] at h
  by_cases h1 : s < q
  · simp [decreStock, hstock, hprice, hlimit, h1] at h
  by_cases h2 : L < userBought st t u + q
  · simp [decreStock, hstock, hprice, hlimit, h1, h2] at h
  have hres : (decreStock st t q u).2 =
      { infos := upsert st.infos t
          { stock := some (s - q), price := some pr, limit := some L },
        users := upsert st.users t (hincrby (getUsersHash st t) u q) } := by
    simp [decreStock, hstock, hprice, hlimit, h1, h2]
  have hIkey : alookup st.infos t =
      some { stock := some s, price := some pr, limit := some L } := by
    rcases ha : alookup st.infos t with _ | ih
    · simp only [getInfoHash, ha, Option.getD_none] at hstock
      simp at hstock
    · simp only [getInfoHash, ha, Option.getD_some] at hstock hprice hlimit
      cases ih
      simp_all
  constructor
  · intro t'
    by_cases ht : t' = t
    · subst ht
      rw [hres]
      simp only [rollbackStock, getInfoHash, getUsersHash]
      simp [alookup_upsert_self, hIkey, Int.sub_add_cancel]
    · rw [hres]
      simp only [rollbackStock, getInfoHash, getUsersHash]
      simp [alookup_upsert_self, alookup_upsert_other _ _ _ _ ht]
  · intro t' v
    by_cases ht : t' = t
    · subst ht
      rw [hres]
      simp only [rollbackStock, userBought, getUsersHash, getInfoHash]
      simp only [alookup_upsert_self, Option.getD_some]
      by_cases hv : v = u
      · subst hv
        simp [alookup_hincrby_self]
      · simp [alookup_hincrby_other _ _ _ _ hv]
    · rw [hres]
      simp only [rollbackStock, userBought, getUsersHash]
      simp [alookup_upsert_other _ _ _ _ ht]

/-- Claim C3: a successful Reserve (DecreStock) immediately followed by
Rollback (RollbackStock) with the same ticket, quantity and user restores
the observable inventory entry (stock, price, limit) and every per-user
purchased counter to their pre-Reserve values. -/
theorem reserve_rollback_neutral (st : RedisState) (t : Nat) (q : Int)
    (u : Nat) (p : Price)
    (h : (decreStock st t q u).1 = Except.ok p) :
    (∀ t', getInfoHash (rollbackStock (decreStock st t q u).2 t q u) t' =
      getInfoHash st t') ∧
    (∀ t' v, userBought (rollbackStock (decreStock st t q u).2 t q u) t' v =
      userBought st t' v) :=
  reserve_rollback_restores st t q u p h

/-- Witness for C3 at stock 10, price 5, limit 3, quantity 2, user 7. -/
theorem reserve_rollback_neutral_witness :
    getInfoHash (rollbackStock
        (decreStock (warmUpInventory emptyRedis 1 10 5 3) 1 2 7).2 1 2 7) 1 =
      getInfoHash (warmUpInventory emptyRedis 1 10 5 3) 1 ∧
    userBought (rollbackStock
        (decreStock (warmUpInventory emptyRedis 1 10 5 3) 1 2 7).2 1 2 7) 1 7 =
      userBought (warmUpInventory emptyRedis 1 10 5 3) 1 7 :=
  ⟨(reserve_rollback_neutral (warmUpInventory emptyRedis 1 10 5 3) 1 2 7 5 (by decide)).1 1,
   (reserve_rollback_neutral (warmUpInventory emptyRedis 1 10 5 3) 1 2 7 5 (by decide)).2 1 7⟩

/-! ### Interleavings of Reserve calls on one ticket -/

/-- An interleaving of Reserve calls of one quantity on one ticket: each
script execution is one indivisible EVAL, so any interleaving of N
concurrent Reserve calls is a sequence of N script executions; the list
holds the calling user of each execution in order. Returns the final Redis
state and how many of the calls succeeded. -/
def runReserves (st : RedisState) (t : Nat) (q : Int) : List Nat → RedisState × Nat
  | [] => (st, 0)
  | u :: us =>
      match decreStock st t q u with
      | (Except.ok _, st1) =>
          ((runReserves st1 t q us).1, (runReserves st1 t q us).2 + 1)
      | (Except.error _, st1) => runReserves st1 t q us

theorem runReserves_spec (t : Nat) (qn L : Nat) (p : Price) (hq : 1 ≤ qn)
    (hlim : qn ≤ L) :
    ∀ (users : List Nat) (st : RedisState) (s : Nat),
      getInfoHash st t =
        { stock := some (s : Int), price := some p, limit := some (L : Int) } →
      (∀ u ∈ users, userBought st t u = 0) →
      users.Nodup →
      (runReserves st t (qn : Int) users).2 = min users.length (s / qn) ∧
      getInfoHash (runReserves st t (qn : Int) users).1 t =
        { stock := some ((s : Int) - (qn : Int) * ((min users.length (s / qn) : Nat) : Int)),
          price := some p, limit := some (L : Int) } := by
  intro users
  induction users with
  | nil =>
      intro st s hI _ _
      simp [runReserves, hI]
  | cons u us ih =>
      intro st s hI hB hnd
      have hBu : userBought st t u = 0 := hB u (List.mem_cons_self u us)
      obtain ⟨hu, hnd'⟩ := List.nodup_cons.mp hnd
      by_cases hs : s < qn
      · have hsi : (s : Int) < (qn : Int) := by exact_mod_cast hs
        have hdiv : s / qn = 0 := Nat.div_eq_of_lt hs
        have hrec := ih st s hI (fun v hv => hB v (List.mem_cons_of_mem u hv)) hnd'
        have hstep : decreStock st t (qn : Int) u =
            (Except.error AppError.insufficientStock, st) := by
          simp [decreStock, hI, hsi]
        refine ⟨?_, ?_⟩
        · rw [runReserves, hstep]
          simp [hrec.1, hdiv]
        · rw [runReserves, hstep]
          simp only []
          rw [hrec.2]
          simp [hdiv]
      · have hle : qn ≤ s := Nat.le_of_not_lt hs
        have hsi : ¬ ((s : Int) < (qn : Int)) := by exact_mod_cast hs
        have hcap : ¬ ((L : Int) < userBought st t u + (qn : Int)) := by
          rw [hBu]
          omega
        have hstep : decreStock st t (qn : Int) u =
            (Except.ok p,
             { infos := upsert st.infos t
                 { stock := some ((s : Int) - (qn : Int)), price := some p,
                   limit := some (L : Int) },
               users := upsert st.users t (hincrby (getUsersHash st t) u (qn : Int)) }) := by
          simp [decreStock, hI, hsi, hcap]
        set st1 : RedisState :=
          { infos := upsert st.infos t
              { stock := some ((s : Int) - (qn : Int)), price := some p,
                limit := some (L : Int) },
            users := upsert st.users t (hincrby (getUsersHash st t) u (qn : Int)) }
          with hst1
        have hI1 : getInfoHash st1 t =
            { stock := some ((s - qn : Nat) : Int), price := some p,
              limit := some (L : Int) } := by
          rw [hst1]
          simp [getInfoHash, alookup_upsert_self, Nat.cast_sub hle]
        have hB1 : ∀ v ∈ us, userBought st1 t v = 0 := by
          intro v hv
          have hvu : v ≠ u := fun he => hu (he ▸ hv)
          rw [hst1]
          simp only [userBought, getUsersHash, alookup_upsert_self, Option.getD_some]
          rw [alookup_hincrby_other _ _ _ _ hvu]
          exact hB v (List.mem_cons_of_mem u hv)
        have hrec := ih st1 (s - qn) hI1 hB1 hnd'
        have hdiv : s / qn = (s - qn) / qn + 1 := by
          conv_lhs => rw [← Nat.sub_add_cancel hle]
          rw [Nat.add_div_right _ (by omega : 0 < qn)]
        have hmin : min (us.length + 1) (s / qn) = min us.length ((s - qn) / qn) + 1 := by
          rw [hdiv]
          omega
        refine ⟨?_, ?_⟩
        · rw [runReserves, hstep]
          simp only [List.length_cons, hmin]
          rw [hrec.1]
        · rw [runReserves, hstep]
          simp only [List.length_cons, hmin]
          rw [hrec.2]
          have hcast : ((s - qn : Nat) : Int) = (s : Int) - (qn : Int) :=
            Nat.cast_sub hle
          simp only [InfoHash.mk.injEq, Option.some.injEq, hcast, and_true, true_and]
          push_cast
          ring

/-- Claim C1 fails as stated: with stock 2, limit 1 and an interleaving of
two Reserve calls of quantity 1 by the same user, exactly one call succeeds
although min(N, S div q) = min 2 2 = 2: the per-user cap bounds the number
of successes too. -/
theorem no_oversell_counterexample :
    (runReserves (warmUpInventory emptyRedis 1 2 5 1) 1 1 [7, 7]).2 = 1 ∧
    (1 : Nat) ≠ min 2 (2 / 1) := by
  refine ⟨by decide, by decide⟩

/-- Claim C1 (amended): for a ticket warmed with stock S, limit L and any
interleaving of Reserve calls of quantity q with 1 ≤ q, issued by pairwise
distinct users each allowed at least one purchase (q ≤ L, so the per-user
cap never rejects first purchases), the number of successful calls is
exactly min(N, S div q), the recorded stock afterwards is S - successes * q,
and after every prefix of the interleaving the recorded stock is
nonnegative. -/
theorem no_oversell (t S qn L : Nat) (p : Price) (users : List Nat)
    (hq : 1 ≤ qn) (hlim : qn ≤ L) (hnd : users.Nodup) :
    (runReserves (warmUpInventory emptyRedis t (S : Int) p (L : Int)) t (qn : Int) users).2
      = min users.length (S / qn) ∧
    getInfoHash (runReserves (warmUpInventory emptyRedis t (S : Int) p (L : Int)) t
        (qn : Int) users).1 t =
      { stock := some ((S : Int) - (qn : Int) * ((min users.length (S / qn) : Nat) : Int)),
        price := some p, limit := some (L : Int) } ∧
    ∀ k : Nat, 0 ≤ ((getInfoHash (runReserves (warmUpInventory emptyRedis t (S : Int) p (L : Int)) t
        (qn : Int) (users.take k)).1 t).stock).getD 0 := by
  have hI0 : getInfoHash (warmUpInventory emptyRedis t (S : Int) p (L : Int)) t =
      { stock := some (S : Int), price := some p, limit := some (L : Int) } :=
    getInfoHash_warmUp emptyRedis t (S : Int) p (L : Int)
  have hmain := runReserves_spec t qn L p hq hlim users
      (warmUpInventory emptyRedis t (S : Int) p (L : Int)) S hI0 (fun u _ => rfl) hnd
  refine ⟨hmain.1, hmain.2, ?_⟩
  intro k
  have hk := runReserves_spec t qn L p hq hlim (users.take k)
      (warmUpInventory emptyRedis t (S : Int) p (L : Int)) S hI0 (fun u _ => rfl)
      ((List.take_sublist k users).nodup hnd)
  rw [hk.2]
  have hbound : qn * min (users.take k).length (S / qn) ≤ S := by
    calc qn * min (users.take k).length (S / qn)
        ≤ qn * (S / qn) := Nat.mul_le_mul_left qn (Nat.min_le_right _ _)
      _ = (S / qn) * qn := Nat.mul_comm _ _
      _ ≤ S := Nat.div_mul_le_self S qn
  have hbnd : ((qn : Int) * ((min (users.take k).length (S / qn) : Nat) : Int)) ≤ (S : Int) := by
    exact_mod_cast hbound
  simp only [Option.getD_some]
  linarith

/-- Witness for C1 at stock 5, limit 2, quantity 2 and three distinct
users: two successes, stock 1 afterwards. -/
theorem no_oversell_witness :
    (runReserves (warmUpInventory emptyRedis 1 5 9 2) 1 2 [3, 4, 5]).2
      = min 3 (5 / 2) ∧
    0 ≤ ((getInfoHash (runReserves (warmUpInventory emptyRedis 1 5 9 2) 1 2
        ([3, 4, 5].take 2)).1 1).stock).getD 0 :=
  ⟨(no_oversell 1 5 2 2 9 [3, 4, 5] (by decide) (by decide) (by decide)).1,
   (no_oversell 1 5 2 2 9 [3, 4, 5] (by decide) (by decide) (by decide)).2.2 2⟩

/-! ### Per-user cap -/

/-- A sequence of Reserve calls, each one a triple of ticket, quantity and
user; again an arbitrary interleaving of concurrent calls, each script being
one indivisible EVAL. -/
def runCalls (st : RedisState) : List (Nat × Int × Nat) → RedisState
  | [] => st
  | c :: cs => runCalls (decreStock st c.1 c.2.1 c.2.2).2 cs

theorem decreStock_preserves_cap (st : RedisState) (t : Nat) (L : Int)
    (t' : Nat) (q : Int) (u : Nat)
    (hL : (getInfoHash st t).limit = some L)
    (hB : ∀ v, userBought st t v ≤ L) :
    (getInfoHash (decreStock st t' q u).2 t).limit = some L ∧
    ∀ v, userBought (decreStock st t' q u).2 t v ≤ L := by
  rcases hstock : (getInfoHash st t').stock with _ | s
  · simp [decreStock, hstock, hL, hB]
  rcases hprice : (getInfoHash st t').price with _ | pr
  · simp [decreStock, hstock, hprice, hL, hB]
  rcases hlimit : (getInfoHash st t').limit with _ | L'
  · simp [decreStock, hstock, hprice, hlimit, hL, hB]
  by_cases h1 : s < q
  · simp [decreStock, hstock, hprice, hlimit, h1, hL, hB]
  by_cases h2 : L' < userBought st t' u + q
  · simp [decreStock, hstock, hprice, hlimit, h1, h2, hL, hB]
  have hres : (decreStock st t' q u).2 =
      { infos := upsert st.infos t'
          { stock := some (s - q), price := some pr, limit := some L' },
        users := upsert st.users t' (hincrby (getUsersHash st t') u q) } := by
    simp [decreStock, hstock, hprice, hlimit, h1, h2]
  rw [hres]
  by_cases ht : t = t'
  · subst ht
    have hLL : L' = L := by
      rw [hlimit] at hL
      exact (Option.some.injEq _ _ ▸ hL :)
    subst hLL
    constructor
    · simp [getInfoHash, alookup_upsert_self]
    · intro v
      simp only [userBought, getUsersHash, alookup_upsert_self, Option.getD_some]
      by_cases hv : v = u
      · subst hv
        rw [alookup_hincrby_self]
        simp only [Option.getD_some]
        simp only [userBought, getUsersHash] at h2
        omega
      · rw [alookup_hincrby_other _ _ _ _ hv]
        exact hB v
  · constructor
    · simp only [getInfoHash]
      rw [alookup_upsert_other _ _ _ _ ht]
      exact hL
    · intro v
      simp only [userBought, getUsersHash]
      rw [alookup_upsert_other _ _ _ _ ht]
      exact hB v

theorem runCalls_cap (t : Nat) (L : Int) :
    ∀ (calls : List (Nat × Int × Nat)) (st : RedisState),
      (getInfoHash st t).limit = some L →
      (∀ v, userBought st t v ≤ L) →
      (getInfoHash (runCalls st calls) t).limit = some L ∧
      ∀ v, userBought (runCalls st calls) t v ≤ L := by
  intro calls
  induction calls with
  | nil => intro st hL hB; exact ⟨hL, hB⟩
  | cons c cs ih =>
      intro st hL hB
      have hstep := decreStock_preserves_cap st t L c.1 c.2.1 c.2.2 hL hB
      exact ih _ hstep.1 hstep.2

/-- Claim C2 fails as stated: with warmed stock 1 and limit 1, a Reserve of
quantity 2 by a fresh user would exceed the per-user cap (0 + 2 > 1) but is
rejected with the insufficient-stock kind, because the script checks the
total stock first. -/
theorem per_user_cap_counterexample :
    (decreStock (warmUpInventory emptyRedis 1 1 5 1) 1 2 9).1
      = Except.error AppError.insufficientStock ∧
    Except.error AppError.insufficientStock
      ≠ (Except.error AppError.exceedsMaxPerUser : Except AppError Price) := by
  refine ⟨by decide, by decide⟩

/-- Claim C2 (amended): for a ticket whose warmed limit is L, if every
per-user counter is at most L then it stays so after any sequence of Reserve
calls, whatever their tickets, quantities and users; and a Reserve that
passes the existence and total-stock checks but whose quantity plus the
current counter of the user would exceed L is rejected with the
exceeds-max-per-user kind and leaves the whole Redis state unchanged (when
the total-stock check also fails, the insufficient-stock kind is returned
instead, likewise leaving the state unchanged). -/
theorem per_user_cap :
    (∀ (t : Nat) (L : Int) (calls : List (Nat × Int × Nat)) (st : RedisState),
      (getInfoHash st t).limit = some L →
      (∀ v, userBought st t v ≤ L) →
      ∀ v, userBought (runCalls st calls) t v ≤ L) ∧
    (∀ (st : RedisState) (t u : Nat) (q s L : Int) (p : Price),
      getInfoHash st t = { stock := some s, price := some p, limit := some L } →
      ¬ s < q → L < userBought st t u + q →
      decreStock st t q u = (Except.error AppError.exceedsMaxPerUser, st)) := by
  constructor
  · intro t L calls st hL hB
    exact (runCalls_cap t L calls st hL hB).2
  · intro st t u q s L p hI h1 h2
    simp [decreStock, hI, h1, h2]

/-- Witness for C2: a run of two reserves on a warmed ticket keeps the
counter of a bystander user within the limit, and on a ticket with stock 5
and limit 1 a quantity-2 reserve by a fresh user is rejected with the
exceeds-max-per-user kind, leaving the state unchanged. -/
theorem per_user_cap_witness :
    userBought (runCalls (warmUpInventory emptyRedis 1 3 5 2) [(1, 2, 7), (1, 2, 7)]) 1 9 ≤ 2 ∧
    decreStock (warmUpInventory emptyRedis 1 5 5 1) 1 2 7
      = (Except.error AppError.exceedsMaxPerUser, warmUpInventory emptyRedis 1 5 5 1) :=
  ⟨per_user_cap.1 1 2 [(1, 2, 7), (1, 2, 7)] (warmUpInventory emptyRedis 1 3 5 2)
      (by decide) (fun v => by simp [userBought, getUsersHash, warmUpInventory, emptyRedis, alookup]) 9,
   per_user_cap.2 (warmUpInventory emptyRedis 1 5 5 1) 1 7 2 5 1 5
      (by decide) (by decide) (by decide)⟩

/-! ### The relational store (internal/repository, order repository) -/

inductive OrderStatus
  | pending
  | confirmed
  | cancelled
deriving DecidableEq

/-- A row of the orders table, shaped by the migrations: the serial primary
key, the external order identifier (order_id, default gen_random_uuid()),
the request identifier (request_id, NOT NULL with the unique index
idx_orders_request_id), the payload columns, and the soft-delete marker.
Identifiers are modelled as naturals; requestID is an Option because the
INSERT of the order repository does not provide that column. -/
structure OrderRow where
  id : Nat
  orderID : Nat
  requestID : Option Nat
  userID : Nat
  ticketID : Nat
  quantity : Int
  totalPrice : Price
  status : OrderStatus
  deleted : Bool
deriving DecidableEq

/-- A row of the tickets table, restricted to the columns the claims read. -/
structure TicketRow where
  id : Nat
  remainingStock : Int
  totalStock : Int
  deleted : Bool
deriving DecidableEq

/-- The relational database: the two tables and the next serial order id. -/
structure DB where
  orders : List OrderRow
  tickets : List TicketRow
  nextID : Nat
deriving DecidableEq

/-- The Go model.Order envelope handed to PrepareOrder, the queue and
DispatchOrder. -/
structure OrderInput where
  requestID : Nat
  userID : Nat
  ticketID : Nat
  quantity : Int
  totalPrice : Price
  status : OrderStatus
deriving DecidableEq

/-- Create of OrderRepositoryImpl: INSERT INTO orders (user_id, ticket_id,
quantity, total_price, status) VALUES ... RETURNING ...; the column list
does not contain request_id although the schema declares request_id NOT
NULL (migration 009) with the unique index idx_orders_request_id, so the
inserted row carries no request identifier and the backend rejects the
INSERT with a not-null violation; a row that did carry an already present
request_id would be rejected by the unique index. Any backend error is
returned to the caller (wrapped in the source as a failed-to-create
message). -/
def ordersCreate (db : DB) (o : OrderInput) : Except AppError (OrderRow × DB) :=
  let row : OrderRow :=
    { id := db.nextID, orderID := db.nextID, requestID := none,
      userID := o.userID, ticketID := o.ticketID, quantity := o.quantity,
      totalPrice := o.totalPrice, status := o.status, deleted := false }
  if row.requestID.isNone then Except.error AppError.notNullRequestID
  else if db.orders.any (fun r => r.requestID == row.requestID) then
    Except.error AppError.uniqueRequestID
  else
    Except.ok (row, { db with orders := db.orders ++ [row], nextID := db.nextID + 1 })

/-- FindByID of TicketRepositoryImpl: SELECT ... WHERE id = $1 AND
deleted_at IS NULL; no row maps to ErrTicketNotFound. -/
def ticketsFindByID (db : DB) (t : Nat) : Except AppError TicketRow :=
  match db.tickets.find? (fun r => r.id == t && !r.deleted) with
  | some r => Except.ok r
  | none => Except.error AppError.ticketNotFound

/-- Row effect of the conditional UPDATE of DecrementStock: only a row with
the given id whose remaining_stock is at least qty is decremented. -/
def decrementRow (t : Nat) (q : Int) (r : TicketRow) : TicketRow :=
  if r.id = t ∧ q ≤ r.remainingStock then
    { r with remainingStock := r.remainingStock - q }
  else r

/-- DecrementStock of TicketRepositoryImpl: the single UPDATE tickets SET
remaining_stock = remaining_stock - $1 WHERE id = $3 AND remaining_stock >=
$1; zero affected rows map to ErrInsufficientStock and any failure leaves
the table unchanged. -/
def dbDecrementStock (db : DB) (t : Nat) (q : Int) : Except AppError Unit × DB :=
  if db.tickets.countP (fun r => decide (r.id = t ∧ q ≤ r.remainingStock)) = 0 then
    (Except.error AppError.insufficientStock, db)
  else
    (Except.ok (), { db with tickets := db.tickets.map (decrementRow t q) })

/-- IncrementStock of TicketRepositoryImpl: UPDATE tickets SET
remaining_stock = remaining_stock + $1 WHERE id = $3; zero affected rows map
to ErrTicketNotFound. -/
def dbIncrementStock (db : DB) (t : Nat) (q : Int) : Except AppError Unit × DB :=
  if db.tickets.countP (fun r => r.id == t) = 0 then
    (Except.error AppError.ticketNotFound, db)
  else
    (Except.ok (), { db with tickets := db.tickets.map (fun r =>
        if r.id = t then { r with remainingStock := r.remainingStock + q } else r) })

/-- UpdateStatusWithLock of OrderRepositoryImpl: UPDATE orders SET status =
$1 WHERE id = $3 RETURNING the updated row; pgx.ErrNoRows maps to
ErrOrderNotFound. There is no predicate on the current status. -/
def updateStatusWithLock (db : DB) (id : Nat) (s : OrderStatus) :
    Except AppError OrderRow × DB :=
  match db.orders.find? (fun r => r.id == id) with
  | none => (Except.error AppError.orderNotFound, db)
  | some r =>
      (Except.ok { r with status := s },
       { db with orders := db.orders.map (fun x =>
           if x.id = id then { x with status := s } else x) })

/-- Modelled from the spec: OrderRepository.FindByOrderID is called by the
order service but its implementation is not among the sources; following
the spec (sections 3 and 4.3), it reads the non-deleted order carrying the
given external order identifier and maps absence to order_not_found. -/
def findByOrderID (db : DB) (oid : Nat) : Except AppError OrderRow :=
  match db.orders.find? (fun r => r.orderID == oid && !r.deleted) with
  | some r => Except.ok r
  | none => Except.error AppError.orderNotFound

/-! ### The order service, asynchronous and status paths -/

/-- DispatchOrder of OrderServiceImpl: open a transaction, Create the order
row, FindByID the ticket (through the pool, hence against the
pre-transaction state), DecrementStock inside the transaction, commit. Any
error rolls the transaction back (the returned database is the
pre-transaction one) and is returned to the Worker unchanged; there is no
special case for a duplicate request. -/
def dispatchOrder (db : DB) (o : OrderInput) : Except AppError Unit × DB :=
  match ordersCreate db o with
  | Except.error e => (Except.error e, db)
  | Except.ok (created, db1) =>
      match ticketsFindByID db created.ticketID with
      | Except.error e => (Except.error e, db)
      | Except.ok ticket =>
          match dbDecrementStock db1 ticket.id created.quantity with
          | (Except.error e, _) => (Except.error e, db)
          | (Except.ok _, db2) => (Except.ok (), db2)

/-- confirmOrderByID of OrderServiceImpl: one transaction around
UpdateStatusWithLock to confirmed. -/
def confirmOrderByID (db : DB) (id : Nat) : Except AppError Unit × DB :=
  match updateStatusWithLock db id OrderStatus.confirmed with
  | (Except.error e, _) => (Except.error e, db)
  | (Except.ok _, db1) => (Except.ok (), db1)

/-- cancelOrderByID of OrderServiceImpl: one transaction around
UpdateStatusWithLock to cancelled followed by IncrementStock of the ticket
of the returned order by its quantity; any error rolls the transaction
back. -/
def cancelOrderByID (db : DB) (id : Nat) : Except AppError Unit × DB :=
  match updateStatusWithLock db id OrderStatus.cancelled with
  | (Except.error e, _) => (Except.error e, db)
  | (Except.ok order, db1) =>
      match dbIncrementStock db1 order.ticketID order.quantity with
      | (Except.error e, _) => (Except.error e, db)
      | (Except.ok _, db2) => (Except.ok (), db2)

/-- ConfirmOrderByOrderID of OrderServiceImpl: FindByOrderID, reject with
ErrInvalidOrderStatus unless the status is pending, then confirm. -/
def confirmOrderByOrderID (db : DB) (oid : Nat) : Except AppError Unit × DB :=
  match findByOrderID db oid with
  | Except.error e => (Except.error e, db)
  | Except.ok order =>
      if order.status ≠ OrderStatus.pending then
        (Except.error AppError.invalidOrderStatus, db)
      else confirmOrderByID db order.id

/-- CancelOrderByOrderID of OrderServiceImpl: FindByOrderID, reject with
ErrInvalidOrderStatus unless the status is pending, then cancel. -/
def cancelOrderByOrderID (db : DB) (oid : Nat) : Except AppError Unit × DB :=
  match findByOrderID db oid with
  | Except.error e => (Except.error e, db)
  | Except.ok order =>
      if order.status ≠ OrderStatus.pending then
        (Except.error AppError.invalidOrderStatus, db)
      else cancelOrderByID db order.id

/-- Claim C8: DecrementStock is the predicate-guarded single UPDATE: it
returns ErrInsufficientStock exactly when no row with the ticket id has
remaining_stock at least qty (zero affected rows), leaving the table
unchanged in that case; on success it applies the guarded row update to the
table and touches nothing else; and the guarded row update either leaves a
row alone or decrements it by qty to a value that is still nonnegative. -/
theorem decrement_stock_guarded (db : DB) (t : Nat) (q : Int) :
    ((dbDecrementStock db t q).1 = Except.error AppError.insufficientStock ↔
      ∀ r ∈ db.tickets, ¬(r.id = t ∧ q ≤ r.remainingStock)) ∧
    ((dbDecrementStock db t q).1 = Except.error AppError.insufficientStock →
      (dbDecrementStock db t q).2 = db) ∧
    ((dbDecrementStock db t q).1 = Except.ok () →
      (dbDecrementStock db t q).2.tickets = db.tickets.map (decrementRow t q) ∧
      (dbDecrementStock db t q).2.orders = db.orders) ∧
    (∀ r : TicketRow, decrementRow t q r = r ∨
      ((decrementRow t q r).remainingStock = r.remainingStock - q ∧
        0 ≤ (decrementRow t q r).remainingStock)) := by
  have hrow : ∀ r : TicketRow, decrementRow t q r = r ∨
      ((decrementRow t q r).remainingStock = r.remainingStock - q ∧
        0 ≤ (decrementRow t q r).remainingStock) := by
    intro r
    by_cases hg : r.id = t ∧ q ≤ r.remainingStock
    · right
      obtain ⟨h1, h2⟩ := hg
      unfold decrementRow
      rw [if_pos ⟨h1, h2⟩]
      refine ⟨rfl, ?_⟩
      show 0 ≤ r.remainingStock - q
      omega
    · left
      simp [decrementRow, hg]
  by_cases h : db.tickets.countP (fun r => decide (r.id = t ∧ q ≤ r.remainingStock)) = 0
  · have hres : dbDecrementStock db t q = (Except.error AppError.insufficientStock, db) := by
      unfold dbDecrementStock
      rw [if_pos h]
    refine ⟨⟨?_, ?_⟩, ?_, ?_, hrow⟩
    · intro _ r hr hg
      rw [List.countP_eq_zero] at h
      have hr2 := h r hr
      simp only [decide_eq_true_eq] at hr2
      exact hr2 hg
    · intro _
      rw [hres]
    · intro _
      rw [hres]
    · intro hok
      rw [hres] at hok
      simp at hok
  · have hres : dbDecrementStock db t q =
        (Except.ok (), { db with tickets := db.tickets.map (decrementRow t q) }) := by
      unfold dbDecrementStock
      rw [if_neg h]
    refine ⟨⟨?_, ?_⟩, ?_, ?_, hrow⟩
    · intro herr
      rw [hres] at herr
      simp at herr
    · intro hall
      exact absurd (List.countP_eq_zero.mpr (fun r hr => by simpa using hall r hr)) h
    · intro herr
      rw [hres] at herr
      simp at herr
    · intro _
      rw [hres]
      exact ⟨rfl, rfl⟩

def dbW8 : DB :=
  { orders := [],
    tickets := [{ id := 1, remainingStock := 10, totalStock := 10, deleted := false }],
    nextID := 1 }

/-- Witness for C8: on a table with one ticket row of stock 10, a decrement
by 2 succeeds and rewrites the table by the guarded row update. -/
theorem decrement_stock_guarded_witness :
    (dbDecrementStock dbW8 1 2).2.tickets = dbW8.tickets.map (decrementRow 1 2) :=
  ((decrement_stock_guarded dbW8 1 2).2.2.1 (by decide)).1

def dbC4 : DB :=
  { orders := [],
    tickets := [{ id := 1, remainingStock := 100, totalStock := 100, deleted := false }],
    nextID := 1 }

def envC4 : OrderInput :=
  { requestID := 41, userID := 2, ticketID := 1, quantity := 1, totalPrice := 50,
    status := OrderStatus.pending }

/-- Claim C4 names the intended behaviour, but the code contradicts it and
its own schema and repository test: the INSERT of Create omits the NOT NULL
column request_id, so dispatching an envelope - first delivery or
redelivery alike - fails with the not-null violation, DispatchOrder returns
the raw error (the Worker then Nacks instead of acknowledging), the
duplicate branch is unreachable and no order row is persisted by this
path. -/
theorem dispatch_duplicate_evidence :
    dispatchOrder dbC4 envC4 = (Except.error AppError.notNullRequestID, dbC4) ∧
    (dispatchOrder (dispatchOrder dbC4 envC4).2 envC4).1
      = Except.error AppError.notNullRequestID ∧
    (dispatchOrder dbC4 envC4).2.orders.length = 0 := by
  refine ⟨by decide, by decide, by decide⟩

theorem find_id_nodup (l : List OrderRow) (r : OrderRow) (hr : r ∈ l)
    (hnd : (l.map (fun x => x.id)).Nodup) :
    l.find? (fun x => x.id == r.id) = some r := by
  induction l with
  | nil => cases hr
  | cons a tl ih =>
      rcases List.mem_cons.mp hr with he | hm
      · subst he
        have hself : (r.id == r.id) = true := by simp
        simp only [List.find?, hself]
      · simp only [List.map_cons, List.nodup_cons] at hnd
        have haid : (a.id == r.id) = false := by
          simp only [beq_eq_false_iff_ne, ne_eq]
          intro he
          exact hnd.1 (he ▸ List.mem_map_of_mem (fun x => x.id) hm)
        simp only [List.find?, haid]
        exact ih hm hnd.2

def rowC7 : OrderRow :=
  { id := 1, orderID := 5, requestID := some 9, userID := 2, ticketID := 1,
    quantity := 2, totalPrice := 50, status := OrderStatus.confirmed, deleted := false }

def dbC7 : DB :=
  { orders := [rowC7],
    tickets := [{ id := 1, remainingStock := 50, totalStock := 100, deleted := false }],
    nextID := 2 }

/-- Claim C7 fails as stated: Cancel on a confirmed order does not succeed
and credits no stock; the service rejects every non-pending order with
ErrInvalidOrderStatus before opening a transaction. -/
theorem cancel_confirmed_counterexample :
    cancelOrderByOrderID dbC7 5 = (Except.error AppError.invalidOrderStatus, dbC7) := by
  decide

/-- Claim C7 (amended): for an order found by its external identifier,
Confirm and Cancel return ErrInvalidOrderStatus and leave the database
unchanged whenever the status is not pending - on a cancelled order as the
claim says, but equally on a confirmed one; Cancel of a pending order, with
the order ids unique and the ticket row present, succeeds, sets the status
to cancelled and adds the order quantity to the remaining stock of the rows
of its ticket exactly once. -/
theorem confirm_cancel_transitions (db : DB) (oid : Nat) (order : OrderRow)
    (hfind : findByOrderID db oid = Except.ok order) :
    (order.status ≠ OrderStatus.pending →
      confirmOrderByOrderID db oid = (Except.error AppError.invalidOrderStatus, db) ∧
      cancelOrderByOrderID db oid = (Except.error AppError.invalidOrderStatus, db)) ∧
    (order.status = OrderStatus.pending →
      (db.orders.map (fun x => x.id)).Nodup →
      (∃ tk ∈ db.tickets, tk.id = order.ticketID) →
      cancelOrderByOrderID db oid =
        (Except.ok (),
         { orders := db.orders.map (fun x =>
             if x.id = order.id then { x with status := OrderStatus.cancelled } else x),
           tickets := db.tickets.map (fun r =>
             if r.id = order.ticketID then
               { r with remainingStock := r.remainingStock + order.quantity } else r),
           nextID := db.nextID })) := by
  constructor
  · intro hstat
    constructor
    · simp only [confirmOrderByOrderID, hfind]
      rw [if_pos hstat]
    · simp only [cancelOrderByOrderID, hfind]
      rw [if_pos hstat]
  · intro hpend hnd htk
    have hmem : order ∈ db.orders := by
      unfold findByOrderID at hfind
      rcases hf : db.orders.find? (fun r => r.orderID == oid && !r.deleted) with _ | r0
      · rw [hf] at hfind
        cases hfind
      · rw [hf] at hfind
        injection hfind with h0
        subst h0
        exact List.mem_of_find?_eq_some hf
    have hupd : updateStatusWithLock db order.id OrderStatus.cancelled =
        (Except.ok { order with status := OrderStatus.cancelled },
         { db with orders := db.orders.map (fun x =>
             if x.id = order.id then { x with status := OrderStatus.cancelled } else x) }) := by
      unfold updateStatusWithLock
      rw [find_id_nodup db.orders order hmem hnd]
    have hcnt : ¬ db.tickets.countP (fun r => r.id == order.ticketID) = 0 := by
      rcases htk with ⟨tk, htkmem, htkid⟩
      have hpos : 0 < db.tickets.countP (fun r => r.id == order.ticketID) :=
        List.countP_pos_iff.mpr ⟨tk, htkmem, by simp [htkid]⟩
      omega
    simp only [cancelOrderByOrderID, hfind]
    rw [if_neg (by simp [hpend])]
    simp only [cancelOrderByID, hupd]
    simp only [dbIncrementStock]
    rw [if_neg hcnt]

def rowC7p : OrderRow :=
  { id := 1, orderID := 6, requestID := some 9, userID := 2, ticketID := 1,
    quantity := 2, totalPrice := 50, status := OrderStatus.pending, deleted := false }

def dbC7p : DB :=
  { orders := [rowC7p],
    tickets := [{ id := 1, remainingStock := 50, totalStock := 100, deleted := false }],
    nextID := 2 }

def rowC7c : OrderRow :=
  { id := 3, orderID := 8, requestID := some 11, userID := 2, ticketID := 1,
    quantity := 1, totalPrice := 25, status := OrderStatus.cancelled, deleted := false }

def dbC7c : DB :=
  { orders := [rowC7c],
    tickets := [{ id := 1, remainingStock := 50, totalStock := 100, deleted := false }],
    nextID := 4 }

/-- Witness for C7: Confirm on a cancelled order is rejected with the
database untouched, and Cancel of a pending order of quantity 2 succeeds
with the expected table rewrite. -/
theorem confirm_cancel_transitions_witness :
    confirmOrderByOrderID dbC7c 8 = (Except.error AppError.invalidOrderStatus, dbC7c) ∧
    cancelOrderByOrderID dbC7p 6 =
      (Except.ok (),
       { orders := dbC7p.orders.map (fun x =>
           if x.id = rowC7p.id then { x with status := OrderStatus.cancelled } else x),
         tickets := dbC7p.tickets.map (fun r =>
           if r.id = rowC7p.ticketID then
             { r with remainingStock := r.remainingStock + rowC7p.quantity } else r),
         nextID := dbC7p.nextID }) :=
  ⟨((confirm_cancel_transitions dbC7c 8 rowC7c (by decide)).1 (by decide)).1,
   (confirm_cancel_transitions dbC7p 6 rowC7p (by decide)).2 (by decide) (by decide)
     ⟨{ id := 1, remainingStock := 50, totalStock := 100, deleted := false },
      by decide, by decide⟩⟩

/-! ### PrepareOrder, the synchronous path -/

/-- Execution contexts as far as the claims observe them: the request-scoped
context of the caller and context.Background(), which no caller
cancellation reaches. -/
inductive Ctx
  | caller
  | background
deriving DecidableEq

/-- The CreateOrderRequest binding of the Go model. -/
structure CreateOrderRequest where
  userID : Nat
  ticketID : Nat
  quantity : Int
deriving DecidableEq

/-- Outcome of PrepareOrder: the value returned to the caller, the Redis
state afterwards, the PublishOrder invocation if one happened and the
RollbackStock invocation if one happened, each tagged with the context it
received. -/
structure PrepOutcome where
  result : Except AppError OrderInput
  inv : RedisState
  published : Option (Ctx × OrderInput)
  rollback : Option (Ctx × Nat × Int × Nat)
deriving DecidableEq

/-- PrepareOrder of OrderServiceImpl. reserveTransport injects a transport
failure of the DecreStock round trip (in Go, err is non-nil and the script
never ran); publishOk is the PublishOrder outcome; rollbackTransport
injects a transport failure of the RollbackStock round trip, whose error
the source discards. Following the source: a failed DecreStock returns its
error to the caller as is; on success an envelope in status pending with
total price = price times quantity is built and published with the caller
context; if publishing fails the service logs, calls RollbackStock with
context.Background() and returns ErrInternalServerError whatever the
rollback outcome. -/
def prepareOrder (inv : RedisState) (req : CreateOrderRequest)
    (reserveTransport : Option Nat) (publishOk : Bool)
    (rollbackTransport : Option Nat) (requestID : Nat) : PrepOutcome :=
  match reserveTransport with
  | some e =>
      { result := Except.error (AppError.transport e), inv := inv,
        published := none, rollback := none }
  | none =>
      match decreStock inv req.ticketID req.quantity req.userID with
      | (Except.error e, inv1) =>
          { result := Except.error e, inv := inv1, published := none, rollback := none }
      | (Except.ok price, inv1) =>
          let order : OrderInput :=
            { requestID := requestID, userID := req.userID, ticketID := req.ticketID,
              quantity := req.quantity, totalPrice := price * (req.quantity : Price),
              status := OrderStatus.pending }
          if publishOk then
            { result := Except.ok order, inv := inv1,
              published := some (Ctx.caller, order), rollback := none }
          else
            { result := Except.error AppError.internalError,
              inv := match rollbackTransport with
                     | some _ => inv1
                     | none => rollbackStock inv1 req.ticketID req.quantity req.userID,
              published := some (Ctx.caller, order),
              rollback := some (Ctx.background, req.ticketID, req.quantity, req.userID) }

/-- Claim C5: when Publish fails after a successful Reserve, PrepareOrder
invokes RollbackStock under context.Background() - not derived from the
caller context, hence not cancellable by it - returns ErrInternalServerError
whatever the rollback outcome, returns no order, and (whenever the rollback
round trip itself does not fail in transport) the observable inventory is
back to its pre-Reserve values. PrepareOrder calls no repository, so no
order row is persisted on this path. -/
theorem publish_failure_rolls_back (inv : RedisState) (req : CreateOrderRequest)
    (p : Price) (rid : Nat) (rbt : Option Nat)
    (h : (decreStock inv req.ticketID req.quantity req.userID).1 = Except.ok p) :
    (prepareOrder inv req none false rbt rid).result = Except.error AppError.internalError ∧
    (prepareOrder inv req none false rbt rid).rollback =
      some (Ctx.background, req.ticketID, req.quantity, req.userID) ∧
    (∀ o, (prepareOrder inv req none false rbt rid).result ≠ Except.ok o) ∧
    (rbt = none →
      (∀ t', getInfoHash (prepareOrder inv req none false rbt rid).inv t' =
        getInfoHash inv t') ∧
      (∀ t' v, userBought (prepareOrder inv req none false rbt rid).inv t' v =
        userBought inv t' v)) := by
  rcases hds : decreStock inv req.ticketID req.quantity req.userID with ⟨r1, inv1⟩
  rw [hds] at h
  simp only at h
  subst h
  refine ⟨?_, ?_, ?_, ?_⟩
  · simp [prepareOrder, hds]
  · simp [prepareOrder, hds]
  · intro o
    simp [prepareOrder, hds]
  · intro hrbt
    subst hrbt
    have hrestore := reserve_rollback_restores inv req.ticketID req.quantity req.userID p
      (by rw [hds])
    rw [hds] at hrestore
    constructor
    · intro t'
      have := hrestore.1 t'
      simp only at this
      simpa [prepareOrder, hds] using this
    · intro t' v
      have := hrestore.2 t' v
      simp only at this
      simpa [prepareOrder, hds] using this

/-- Witness for C5 on a warmed ticket of stock 10, price 5, limit 3 and a
reserve of quantity 2 by user 7. -/
theorem publish_failure_rolls_back_witness :
    (prepareOrder (warmUpInventory emptyRedis 1 10 5 3)
        { userID := 7, ticketID := 1, quantity := 2 } none false none 99).result
      = Except.error AppError.internalError ∧
    userBought (prepareOrder (warmUpInventory emptyRedis 1 10 5 3)
        { userID := 7, ticketID := 1, quantity := 2 } none false none 99).inv 1 7
      = userBought (warmUpInventory emptyRedis 1 10 5 3) 1 7 :=
  ⟨(publish_failure_rolls_back (warmUpInventory emptyRedis 1 10 5 3)
      { userID := 7, ticketID := 1, quantity := 2 } 5 99 none (by decide)).1,
   ((publish_failure_rolls_back (warmUpInventory emptyRedis 1 10 5 3)
      { userID := 7, ticketID := 1, quantity := 2 } 5 99 none (by decide)).2.2.2 rfl).2 1 7⟩

/-- Claim C6 fails in its transport half: a transport failure of the
DecreStock round trip is returned to the caller raw, not mapped to the
internal-error kind. -/
theorem reserve_transport_counterexample :
    (prepareOrder emptyRedis { userID := 7, ticketID := 1, quantity := 1 }
        (some 3) true none 99).result = Except.error (AppError.transport 3) ∧
    Except.error (AppError.transport 3)
      ≠ (Except.error AppError.internalError : Except AppError OrderInput) := by
  refine ⟨by decide, by decide⟩

/-- Claim C6 (amended): PrepareOrder surfaces a logical Reserve failure
(insufficient stock, exceeds max per user, ticket not found) to the caller
unchanged, and surfaces a transport failure of the Reserve round trip
unchanged as well - the raw error, not the internal-error kind. -/
theorem reserve_errors_surfaced (inv : RedisState) (req : CreateOrderRequest)
    (rid : Nat) (pub : Bool) (rbt : Option Nat) :
    (∀ e : AppError, (decreStock inv req.ticketID req.quantity req.userID).1 = Except.error e →
      (prepareOrder inv req none pub rbt rid).result = Except.error e) ∧
    (∀ c : Nat, (prepareOrder inv req (some c) pub rbt rid).result
      = Except.error (AppError.transport c)) := by
  constructor
  · intro e he
    rcases hds : decreStock inv req.ticketID req.quantity req.userID with ⟨r1, inv1⟩
    rw [hds] at he
    simp only at he
    subst he
    simp [prepareOrder, hds]
  · intro c
    simp [prepareOrder]

/-- Witness for C6: an unwarmed ticket surfaces the ticket-not-found kind,
and an injected transport failure with code 3 is surfaced raw. -/
theorem reserve_errors_surfaced_witness :
    (prepareOrder emptyRedis { userID := 7, ticketID := 2, quantity := 1 }
        none true none 99).result = Except.error AppError.ticketNotFound ∧
    (prepareOrder emptyRedis { userID := 7, ticketID := 2, quantity := 1 }
        (some 3) true none 99).result = Except.error (AppError.transport 3) :=
  ⟨(reserve_errors_surfaced emptyRedis { userID := 7, ticketID := 2, quantity := 1 }
      99 true none).1 AppError.ticketNotFound (by decide),
   (reserve_errors_surfaced emptyRedis { userID := 7, ticketID := 2, quantity := 1 }
      99 true none).2 3⟩

/-! ### The queue poison policy (Redis-stream order queue) -/

/-- The queue state as the claims observe it: the never-delivered messages
of the stream (what the main loop reads with the cursor for new messages)
and the pending entries list of the consumer group, each entry a message id
with its broker delivery counter (the XPENDING retry count). -/
structure QState where
  newMsgs : List Nat
  pel : List (Nat × Nat)
deriving DecidableEq

/-- The scheduling actions of consumers against one message id: a main-loop
read of a new message, an auto-claim of a pending message, and the Ack and
Nack Delivery closures. -/
inductive QAction
  | read (m : Nat)
  | autoclaim (m : Nat)
  | ack (m : Nat)
  | nack (m : Nat) (requeue : Bool)
deriving DecidableEq

/-- XACK: drop the pending entry of a message. -/
def eraseKey (l : List (Nat × Nat)) (k : Nat) : List (Nat × Nat) :=
  l.filter (fun p => p.1 != k)

/-- One queue step. read: XREADGROUP with the new-messages cursor hands a
never-delivered message to the consumer and the broker creates its pending
entry with delivery count 1. autoclaim: XAUTOCLAIM claims a pending entry
after the idle time, incrementing its delivery counter (the spec records
this increment; the source does not pass JUSTID); shouldProcessMessage then
reads the counter with XPENDING and, when it has reached MaxRetryCount,
force-acknowledges the message with XACK and skips it, otherwise the claimed
message is delivered again. ack: XACK. nack true: no broker action, the
entry stays pending for a later claim. nack false: XACK, discarding. The
second component is the message delivered by the step, if any. -/
def qstep (maxRetry : Nat) (st : QState) (a : QAction) : QState × Option Nat :=
  match a with
  | QAction.read m =>
      if m ∈ st.newMsgs then
        ({ newMsgs := st.newMsgs.erase m, pel := (m, 1) :: st.pel }, some m)
      else (st, none)
  | QAction.autoclaim m =>
      match alookup st.pel m with
      | none => (st, none)
      | some n =>
          if maxRetry ≤ n + 1 then ({ st with pel := eraseKey st.pel m }, none)
          else ({ st with pel := upsert st.pel m (n + 1) }, some m)
  | QAction.ack m => ({ st with pel := eraseKey st.pel m }, none)
  | QAction.nack _ true => (st, none)
  | QAction.nack m false => ({ st with pel := eraseKey st.pel m }, none)

/-- All messages delivered along a run of queue steps. -/
def deliveredBy (maxRetry : Nat) : QState → List QAction → List Nat
  | _, [] => []
  | st, a :: as =>
      (qstep maxRetry st a).2.toList ++ deliveredBy maxRetry (qstep maxRetry st a).1 as

theorem alookup_eraseKey_self (l : List (Nat × Nat)) (k : Nat) :
    alookup (eraseKey l k) k = none := by
  induction l with
  | nil => rfl
  | cons p t ih =>
      simp only [eraseKey, List.filter_cons] at ih ⊢
      by_cases hp : p.1 = k
      · simp [hp, ih]
      · simp [bne_iff_ne, hp, alookup, ih]

theorem alookup_eraseKey_other (l : List (Nat × Nat)) (k k2 : Nat) (h : k2 ≠ k) :
    alookup (eraseKey l k) k2 = alookup l k2 := by
  induction l with
  | nil => rfl
  | cons p t ih =>
      simp only [eraseKey, List.filter_cons] at ih ⊢
      by_cases hp : p.1 = k
      · have hp2 : ¬ p.1 = k2 := by
          rw [hp]
          exact fun he => h he.symm
        simp [hp, hp2, alookup, ih, h, Ne.symm h]
      · by_cases hp2 : p.1 = k2
        · simp [bne_iff_ne, hp, hp2, alookup, h, Ne.symm h]
        · simp [bne_iff_ne, hp, hp2, alookup, ih, h, Ne.symm h]

theorem qstep_not_delivered (maxRetry : Nat) (st : QState) (m : Nat) (a : QAction)
    (hnew : m ∉ st.newMsgs) (hpel : alookup st.pel m = none) :
    (qstep maxRetry st a).2 ≠ some m ∧
    m ∉ (qstep maxRetry st a).1.newMsgs ∧
    alookup (qstep maxRetry st a).1.pel m = none := by
  cases a with
  | read m' =>
      by_cases hin : m' ∈ st.newMsgs
      · have hne : m' ≠ m := fun he => hnew (he ▸ hin)
        refine ⟨?_, ?_, ?_⟩
        · simp only [qstep, hin, if_true, ne_eq, Option.some.injEq]
          exact fun he => hne he
        · simp only [qstep, hin, if_true]
          intro hm
          exact hnew ((List.erase_sublist m' st.newMsgs).mem hm)
        · simp only [qstep, hin, if_true]
          simp [alookup, fun he : m' = m => hne he, hpel]
      · simp [qstep, hin, hnew, hpel]
  | autoclaim m' =>
      rcases hl : alookup st.pel m' with _ | n
      · simp [qstep, hl, hnew, hpel]
      · have hne : m' ≠ m := fun he => by
          rw [he] at hl
          rw [hpel] at hl
          cases hl
        by_cases hmax : maxRetry ≤ n + 1
        · simp only [qstep, hl, hmax, if_true]
          exact ⟨by simp, hnew, by rw [alookup_eraseKey_other _ _ _ (Ne.symm hne)]; exact hpel⟩
        · simp only [qstep, hl, hmax, if_false]
          refine ⟨by simp [fun he : m' = m => hne he], hnew, ?_⟩
          rw [alookup_upsert_other _ _ _ _ (Ne.symm hne)]
          exact hpel
  | ack m' =>
      refine ⟨by simp [qstep], by simp [qstep]; exact hnew, ?_⟩
      by_cases hne : m = m'
      · subst hne
        simp [qstep, alookup_eraseKey_self]
      · simp only [qstep]
        rw [alookup_eraseKey_other _ _ _ hne]
        exact hpel
  | nack m' rq =>
      cases rq with
      | true => exact ⟨by simp [qstep], hnew, hpel⟩
      | false =>
          refine ⟨by simp [qstep], by simp [qstep]; exact hnew, ?_⟩
          by_cases hne : m = m'
          · subst hne
            simp [qstep, alookup_eraseKey_self]
          · simp only [qstep]
            rw [alookup_eraseKey_other _ _ _ hne]
            exact hpel

theorem deliveredBy_not_mem (maxRetry : Nat) :
    ∀ (acts : List QAction) (st : QState) (m : Nat),
      m ∉ st.newMsgs → alookup st.pel m = none →
      m ∉ deliveredBy maxRetry st acts := by
  intro acts
  induction acts with
  | nil =>
      intro st m _ _
      simp [deliveredBy]
  | cons a as ih =>
      intro st m hnew hpel
      have hstep := qstep_not_delivered maxRetry st m a hnew hpel
      simp only [deliveredBy, List.mem_append]
      rintro (hhd | htl)
      · rcases hd : (qstep maxRetry st a).2 with _ | d
        · simp [hd] at hhd
        · rw [hd] at hhd
          simp only [Option.toList_some, List.mem_singleton] at hhd
          exact hstep.1 (by rw [hd, hhd])
      · exact ih _ m hstep.2.1 hstep.2.2 htl

/-- Claim C9: a pending message claimed by the auto-claim loop whose broker
delivery counter has reached MaxRetryCount is force-acknowledged and not
delivered, and - being afterwards neither a new message nor pending - no
later sequence of queue steps ever delivers it again. -/
theorem poison_discard (maxRetry : Nat) (st : QState) (m n : Nat)
    (hn : alookup st.pel m = some n) (hmax : maxRetry ≤ n + 1)
    (hnew : m ∉ st.newMsgs) :
    qstep maxRetry st (QAction.autoclaim m) = ({ st with pel := eraseKey st.pel m }, none) ∧
    ∀ acts : List QAction,
      m ∉ deliveredBy maxRetry (qstep maxRetry st (QAction.autoclaim m)).1 acts := by
  have hstep : qstep maxRetry st (QAction.autoclaim m) =
      ({ st with pel := eraseKey st.pel m }, none) := by
    simp [qstep, hn, hmax]
  refine ⟨hstep, ?_⟩
  intro acts
  rw [hstep]
  exact deliveredBy_not_mem maxRetry acts _ m hnew (alookup_eraseKey_self st.pel m)

/-- Witness for C9 with MaxRetryCount 3 and a pending message of delivery
count 2: the claim force-acknowledges it and a later read plus auto-claim
deliver nothing of it. -/
theorem poison_discard_witness :
    qstep 3 { newMsgs := [], pel := [(4, 2)] } (QAction.autoclaim 4) =
      ({ newMsgs := [], pel := eraseKey [(4, 2)] 4 }, none) ∧
    4 ∉ deliveredBy 3 (qstep 3 { newMsgs := [], pel := [(4, 2)] } (QAction.autoclaim 4)).1
      [QAction.read 4, QAction.autoclaim 4] :=
  ⟨(poison_discard 3 { newMsgs := [], pel := [(4, 2)] } 4 2 (by decide) (by decide)
      (by decide)).1,
   (poison_discard 3 { newMsgs := [], pel := [(4, 2)] } 4 2 (by decide) (by decide)
      (by decide)).2 [QAction.read 4, QAction.autoclaim 4]⟩

end TicketSys
